import Mathlib

/-!
Shallow embedding of the eSRP integration core (`src/ersp_integration.py`):
the response classifier `_handle_response`, the table extraction engine
`_parse_table_rows_to_list`, and the callers `fetch_comfort_keepers_report`
(single-table) and `fetch_activity_report` (multi-table / titled sections).

HTML tables are modelled at the granularity the Python code observes them
through BeautifulSoup: a table is a list of rows (`find_all("tr")` order),
a row is a list of cells in document order, and each cell records whether it
is a `<th>` or a `<td>` element together with its `.text` content.
-/

namespace Ersp

/-- Python `str.strip()` on the character list: drop leading and trailing
whitespace. -/
def stripChars (l : List Char) : List Char :=
  ((l.dropWhile Char.isWhitespace).reverse.dropWhile Char.isWhitespace).reverse

/-- Python `str.strip()` (both-ends whitespace trim) on strings. -/
def pyStrip (s : String) : String :=
  String.mk (stripChars s.data)

/-- Does the pattern occur at the head of the text?  (Helper for the Python
`in` substring test.) -/
def leadMatch : List Char → List Char → Bool
  | _, [] => true
  | [], _ :: _ => false
  | a :: as, b :: bs => (a = b) && leadMatch as bs

/-- Does the pattern occur anywhere in the text?  (Helper for `in`.) -/
def occursIn (pat : List Char) : List Char → Bool
  | [] => pat.isEmpty
  | c :: rest => leadMatch (c :: rest) pat || occursIn pat rest

/-- Python `pat in s` substring containment. -/
def strContains (s pat : String) : Bool :=
  occursIn pat.data s.data

/-- One table cell as the extractor observes it: whether the element is a
`<th>` (otherwise it is a `<td>`), and its `.text` content. -/
structure Cell where
  isTh : Bool
  text : String
deriving Repr, DecidableEq

/-- One `<tr>` row: its cells in document order. -/
structure Row where
  cells : List Cell
deriving Repr, DecidableEq

/-- One `<table>` element: its `<tr>` rows in document order
(`table.find_all("tr")`). -/
structure Table where
  rows : List Row
deriving Repr, DecidableEq

/-- Python `cell.text.strip()`. -/
def cellText (c : Cell) : String :=
  pyStrip c.text

/-- BeautifulSoup `row.find_all("th")`. -/
def rowThs (r : Row) : List Cell :=
  r.cells.filter (fun c => c.isTh)

/-- BeautifulSoup `row.find_all("td")`. -/
def rowTds (r : Row) : List Cell :=
  r.cells.filter (fun c => !c.isTh)

/-- BeautifulSoup `row.find_all(["td", "th"])`: every cell of the row. -/
def rowAllCells (r : Row) : List Cell :=
  r.cells

/-- Python `tr.text` for a row: BeautifulSoup concatenates the text of the
descendants; at our granularity that is the concatenation of the cell
texts. -/
def rowText (r : Row) : String :=
  String.join (r.cells.map (fun c => c.text))

/-- Headers as first derived (lines 136-151 of the source), before the
line-break patch.  Mirrors:
`header_row = table.find("tr")`; prefer `th` cells, else `td` cells of that
row; if the result is empty, synthesize `Column_{i+1}` names up to
`max(len(row.find_all(["td","th"])) for row in table.find_all("tr"))`.
Python's `max` raises `ValueError` on an empty sequence, which happens
exactly when the table has no rows at all; that is the `Except.error`
case. -/
def rawHeaders (t : Table) : Except String (List String) :=
  let headers : List String :=
    match t.rows.head? with
    | some header_row =>
      let th_cells := rowThs header_row
      if th_cells.isEmpty then (rowTds header_row).map cellText
      else th_cells.map cellText
    | none => []
  if headers.isEmpty then
    match t.rows.map (fun r => (rowAllCells r).length) with
    | [] => Except.error "ValueError: max() arg is an empty sequence"
    | n :: ns =>
      Except.ok ((List.range (List.foldl max n ns)).map
        (fun i => "Column_" ++ toString (i + 1)))
  else Except.ok headers

/-- Python header.split on a line break, taking component 0: the text
preceding the first line break (the whole string when it has no line
break). -/
def truncateHeader (h : String) : String :=
  String.mk (h.data.takeWhile (fun c => c ≠ '\n'))

/-- The post-processing patch (lines 153-155 of the source): if any header
contains a line break, truncate every header to its first line. -/
def patchHeaders (hs : List String) : List String :=
  if hs.any (fun h => h.data.any (fun c => c = '\n')) then
    hs.map truncateHeader
  else hs

/-- Python dict assignment `d[k] = v`: overwrite in place when the key is
present (keeping its original position), else append the new pair. -/
def dictSet (d : List (String × String)) (k v : String) :
    List (String × String) :=
  if d.any (fun p => p.1 = k) then
    d.map (fun p => if p.1 = k then (k, v) else p)
  else d ++ [(k, v)]

/-- Python dict lookup `d[k]` (as an option): first pair with the key. -/
def dictGet (k : String) : List (String × String) → Option String
  | [] => none
  | p :: t => if p.1 = k then some p.2 else dictGet k t

/-- The keys of a record, in insertion order. -/
def dictKeys (d : List (String × String)) : List String :=
  d.map (fun p => p.1)

/-- The loop `for i, header in enumerate(headers)` building `row_data`:
at index `i` the value is the trimmed text of the row's `i`-th `td` cell
when it exists, else the empty string.  (`cell_text if cell_text else
empty_value` is the identity on the trimmed text, since an empty trimmed
text is already the empty string.)  `cellValueAt` is the value one loop
iteration assigns; `buildRowAux` is the loop itself. -/
def cellValueAt (cells : List Cell) (i : Nat) : String :=
  match cells.get? i with
  | some c => cellText c
  | none => ""

/-- The record-building loop over `enumerate(headers)`. -/
def buildRowAux (cells : List Cell) (i : Nat) (hs : List String)
    (d : List (String × String)) : List (String × String) :=
  match hs with
  | [] => d
  | h :: t => buildRowAux cells (i + 1) t (dictSet d h (cellValueAt cells i))

/-- The record built from one data row's `td` cells against the headers. -/
def buildRowData (hs : List String) (cells : List Cell) :
    List (String × String) :=
  buildRowAux cells 0 hs []

/-- Python `any(cell.text.strip() for cell in cells)` where
`cells = tr.find_all("td")`: the row has data iff some `td` cell trims to a
non-empty string.  (`th` cells in data rows are never consulted.) -/
def rowHasData (tr : Row) : Bool :=
  (rowTds tr).any (fun c => cellText c ≠ "")

/-- The extractor `_parse_table_rows_to_list(table, include_blank_rows)`.  Header
derivation, the line-break patch, then the loop over
`table.find_all("tr")[1:]` appending a record for every row that has data
(or for every row, when `include_blank_rows` is set).  The error case is
Python's `ValueError` from `max()` over the rows of a rowless table. -/
def parseTableRowsToList (t : Table) (include_blank_rows : Bool) :
    Except String (List (List (String × String))) :=
  match rawHeaders t with
  | Except.error e => Except.error e
  | Except.ok headers0 =>
    let headers := patchHeaders headers0
    Except.ok ((t.rows.drop 1).foldl
      (fun rows tr =>
        if rowHasData tr || include_blank_rows then
          rows ++ [buildRowData headers (rowTds tr)]
        else rows)
      [])

/-- The headers a successful parse actually uses (a total convenience
reading of `rawHeaders` followed by the patch; junk `[]` on the rowless
error case, which never reaches the row loop). -/
def tableHeaders (t : Table) : List String :=
  patchHeaders ((rawHeaders t).toOption.getD [])

/-! ## Response classifier (`_handle_response`, lines 37-68) -/

/-- A raw HTTP response as `_handle_response` observes it: status code,
reason phrase, the URL (`response.url`), a rendering of the header mapping
(`response.headers`, used only inside the generic failure message), and the
textual body that `await response.text()` yields. -/
structure RawResponse where
  status : Nat
  reason : String
  url : String
  headersStr : String
  body : String
deriving Repr, DecidableEq

/-- The exceptions `_handle_response` raises, one constructor per exception
class at its raise sites: `IntegrationAuthError(message)` and
`IntegrationAPIError(integration_name, message, status_code?)` (the third
argument is present at the generic raise site and absent at the
302 raise site). -/
inductive ErspError where
  | authError (message : String)
  | apiError (integrationName : String) (message : String)
      (statusCode : Option Nat)
deriving Repr, DecidableEq

/-- Is the raised exception an `IntegrationAPIError` (as opposed to an
`IntegrationAuthError`)? -/
def raisedApiError (e : Except ErspError String) : Bool :=
  match e with
  | Except.error (ErspError.apiError _ _ _) => true
  | _ => false

/-- The login-page marker element of line 41. -/
def loginDivMarker : String :=
  "<div class=\"login-main\" ng-app=\"loginApp\" ng-cloak>"

/-- Value of `self.integration_name`, set in the constructor of
`ErspIntegration`. -/
def integrationName : String := "ersp"

/-- The classifier `_handle_response`.  The first component is the
classification result (the returned body, or the raised exception); the
second counts how many times `await response.text()` was invoked during
the execution.  The source has four `response.text()` call sites — line 40
(the 200 branch's marker read), line 47 (the 200 branch's return), line 55
(the 4xx message) and line 61 (the 302 message) — and each one executed
adds one to the count; the generic non-200 branch (lines 63-68) contains
no call site, so its count is 0.  The value returned by a repeated
invocation is the same `body` (aiohttp caches the payload after the first
read). -/
def handleResponse (response : RawResponse) :
    Except ErspError String × Nat :=
  if response.status = 200 then
    -- r_text = await response.text()
    let reads := 1
    let r_text := response.body
    if strContains r_text loginDivMarker || strContains r_text "loginApp" then
      (Except.error (ErspError.authError
        ("ERSP Authentication failed for " ++ response.url)), reads)
    else
      -- return await response.text()   (a second read of the body)
      (Except.ok response.body, reads + 1)
  else
    let status_code := response.status
    if 400 ≤ status_code ∧ status_code < 500 then
      (Except.error (ErspError.authError
        ("ERSP: " ++ toString status_code ++ " - " ++ response.reason
          ++ " \n" ++ response.body)), 1)
    else if status_code = 302 then
      (Except.error (ErspError.apiError integrationName
        ("forced redirection caught to " ++ response.url ++ ". \n"
          ++ response.body) none), 1)
    else
      (Except.error (ErspError.apiError integrationName
        ("ersp: " ++ toString status_code ++ " - " ++ response.headersStr)
        (some status_code)), 0)

/-! ## Callers: single-table and multi-table extraction -/

/-- The extraction step of `fetch_comfort_keepers_report` (lines 222-226):
`soup.select_one("table.functionLayout")` yields the table when one
matches, else `None`; the result is passed to `_parse_table_rows_to_list`
unchecked, so a missing table makes Python dereference `None`
(`AttributeError`), modelled as the error case. -/
def comfortKeepersExtract (reportTable : Option Table) :
    Except String (List (List (String × String))) :=
  match reportTable with
  | none =>
    Except.error
      "AttributeError: NoneType object has no attribute find"
  | some t => parseTableRowsToList t false

/-- Processing of one selected table in `fetch_activity_report`
(lines 286-291): `table.select_one("tr")` is the first row or `None`
(a rowless table dereferences `None`: the first error case);
`this_title = first_row.text.strip()`; `decompose()` removes that first
row; then `_parse_table_rows_to_list` runs on the remainder. -/
def activitySection (t : Table) :
    Except String (String × List (List (String × String))) :=
  match t.rows.head? with
  | none =>
    Except.error
      "AttributeError: NoneType object has no attribute text"
  | some first_row =>
    let this_title := pyStrip (rowText first_row)
    match parseTableRowsToList (Table.mk (t.rows.drop 1)) false with
    | Except.error e => Except.error e
    | Except.ok table_data => Except.ok (this_title, table_data)

/-- The loop of `fetch_activity_report` over
`soup.select("table.functionLayout")` (document order), appending one
`{title: records}` section per table; any exception inside the loop aborts
the whole fetch. -/
def processActivityTables (tables : List Table) :
    Except String (List (String × List (List (String × String)))) :=
  match tables with
  | [] => Except.ok []
  | t :: rest =>
    match activitySection t with
    | Except.error e => Except.error e
    | Except.ok s =>
      match processActivityTables rest with
      | Except.error e => Except.error e
      | Except.ok ss => Except.ok (s :: ss)

/-! ## Lemmas on the Python-dict model -/

theorem dictGet_map_overwrite (d : List (String × String)) (k v : String)
    (hmem : d.any (fun p => p.1 = k) = true) :
    dictGet k (d.map (fun p => if p.1 = k then (k, v) else p)) = some v := by
  induction d with
  | nil => simp at hmem
  | cons p t ih =>
    by_cases hp : p.1 = k
    · simp [dictGet, hp]
    · have ht : t.any (fun p => p.1 = k) = true := by
        simpa [List.any_cons, hp] using hmem
      simp [dictGet, hp, ih ht]

theorem dictGet_append_single (d : List (String × String)) (k v : String)
    (hmem : d.any (fun p => p.1 = k) = false) :
    dictGet k (d ++ [(k, v)]) = some v := by
  induction d with
  | nil => simp [dictGet]
  | cons p t ih =>
    rw [List.any_cons] at hmem
    have hp : ¬ p.1 = k := by
      intro h
      rw [h] at hmem
      simp at hmem
    have ht : t.any (fun p => p.1 = k) = false :=
      (Bool.or_eq_false_iff.mp hmem).2
    simp [dictGet, hp, ih ht]

theorem dictGet_dictSet_self (d : List (String × String)) (k v : String) :
    dictGet k (dictSet d k v) = some v := by
  unfold dictSet
  by_cases h : d.any (fun p => p.1 = k) = true
  · rw [if_pos h]
    exact dictGet_map_overwrite d k v h
  · rw [if_neg h]
    exact dictGet_append_single d k v (Bool.eq_false_iff.mpr h)

theorem dictGet_map_ne (d : List (String × String)) (k v a : String)
    (h : a ≠ k) :
    dictGet a (d.map (fun p => if p.1 = k then (k, v) else p)) =
      dictGet a d := by
  induction d with
  | nil => simp
  | cons p t ih =>
    by_cases hp : p.1 = k
    · have hka : ¬ k = a := fun hk => h hk.symm
      simp [dictGet, hp, hka, ih]
    · simp [dictGet, hp, ih]

theorem dictGet_append_ne (d : List (String × String)) (k v a : String)
    (h : a ≠ k) :
    dictGet a (d ++ [(k, v)]) = dictGet a d := by
  induction d with
  | nil =>
    have hka : ¬ k = a := fun hk => h hk.symm
    simp [dictGet, hka]
  | cons p t ih =>
    by_cases hp : p.1 = a <;> simp [dictGet, hp, ih]

theorem dictGet_dictSet_ne (d : List (String × String)) (k v a : String)
    (h : a ≠ k) :
    dictGet a (dictSet d k v) = dictGet a d := by
  unfold dictSet
  by_cases hm : d.any (fun p => p.1 = k) = true
  · rw [if_pos hm]
    exact dictGet_map_ne d k v a h
  · rw [if_neg hm]
    exact dictGet_append_ne d k v a h

theorem dictKeys_map_overwrite (d : List (String × String)) (k v : String) :
    dictKeys (d.map (fun p => if p.1 = k then (k, v) else p)) = dictKeys d := by
  induction d with
  | nil => simp [dictKeys]
  | cons p t ih =>
    by_cases hp : p.1 = k <;> simp [dictKeys, hp] <;>
      simpa [dictKeys] using ih

theorem mem_dictKeys_dictSet (d : List (String × String)) (k v a : String) :
    a ∈ dictKeys (dictSet d k v) ↔ a ∈ dictKeys d ∨ a = k := by
  unfold dictSet
  by_cases hm : d.any (fun p => p.1 = k) = true
  · rw [if_pos hm, dictKeys_map_overwrite]
    constructor
    · exact fun h => Or.inl h
    · rintro (h | rfl)
      · exact h
      · obtain ⟨p, hp, hpk⟩ := List.any_eq_true.mp hm
        have : p.1 = a := by simpa using hpk
        exact this ▸ List.mem_map.mpr ⟨p, hp, rfl⟩
  · rw [if_neg hm]
    simp [dictKeys]

theorem dictSet_value_cases (d : List (String × String)) (k v : String)
    (p : String × String) (hp : p ∈ dictSet d k v) :
    p ∈ d ∨ p.2 = v := by
  unfold dictSet at hp
  by_cases hm : d.any (fun pp => pp.1 = k) = true
  · rw [if_pos hm] at hp
    obtain ⟨q, hq, hfq⟩ := List.mem_map.mp hp
    by_cases hqk : q.1 = k
    · right
      simp [hqk] at hfq
      simp [← hfq]
    · left
      rw [if_neg hqk] at hfq
      exact hfq ▸ hq
  · rw [if_neg hm] at hp
    rcases List.mem_append.mp hp with h | h
    · exact Or.inl h
    · right
      simp at h
      simp [h]

/-! ## Lemmas on the record-building loop -/

theorem dictGet_buildRowAux_of_not_mem (cells : List Cell) (a : String)
    (hs : List String) (h : a ∉ hs) :
    ∀ (i : Nat) (d : List (String × String)),
      dictGet a (buildRowAux cells i hs d) = dictGet a d := by
  induction hs with
  | nil => intro i d; rfl
  | cons h0 t ih =>
    intro i d
    have ha0 : a ≠ h0 := fun he => h (he ▸ List.mem_cons_self h0 t)
    have hat : a ∉ t := fun he => h (List.mem_cons_of_mem h0 he)
    rw [buildRowAux, ih hat, dictGet_dictSet_ne _ _ _ _ ha0]

theorem mem_dictKeys_buildRowAux (cells : List Cell) (a : String)
    (hs : List String) :
    ∀ (i : Nat) (d : List (String × String)),
      a ∈ dictKeys (buildRowAux cells i hs d) ↔ a ∈ dictKeys d ∨ a ∈ hs := by
  induction hs with
  | nil => intro i d; simp [buildRowAux]
  | cons h0 t ih =>
    intro i d
    rw [buildRowAux, ih]
    rw [mem_dictKeys_dictSet]
    constructor
    · rintro ((h | h) | h)
      · exact Or.inl h
      · exact Or.inr (h ▸ List.mem_cons_self h0 t)
      · exact Or.inr (List.mem_cons_of_mem h0 h)
    · rintro (h | h)
      · exact Or.inl (Or.inl h)
      · rcases List.mem_cons.mp h with h | h
        · exact Or.inl (Or.inr h)
        · exact Or.inr h

theorem dictGet_buildRowAux_last (cells : List Cell) (a : String)
    (hs1 hs2 : List String) (h : a ∉ hs2) :
    ∀ (i : Nat) (d : List (String × String)),
      dictGet a (buildRowAux cells i (hs1 ++ a :: hs2) d) =
        some (cellValueAt cells (i + hs1.length)) := by
  induction hs1 with
  | nil =>
    intro i d
    rw [List.nil_append, buildRowAux,
      dictGet_buildRowAux_of_not_mem cells a hs2 h,
      dictGet_dictSet_self]
    simp
  | cons h0 t ih =>
    intro i d
    rw [List.cons_append, buildRowAux, ih]
    rw [show (i + 1) + t.length = i + (h0 :: t).length from by
      rw [List.length_cons]; omega]

theorem mem_dictKeys_buildRowData (hs : List String) (cells : List Cell)
    (a : String) :
    a ∈ dictKeys (buildRowData hs cells) ↔ a ∈ hs := by
  unfold buildRowData
  rw [mem_dictKeys_buildRowAux]
  simp [dictKeys]

theorem dictGet_buildRowData_last (hs1 hs2 : List String) (a : String)
    (cells : List Cell) (h : a ∉ hs2) :
    dictGet a (buildRowData (hs1 ++ a :: hs2) cells) =
      some (cellValueAt cells hs1.length) := by
  unfold buildRowData
  rw [dictGet_buildRowAux_last cells a hs1 hs2 h]
  simp

theorem exists_last_occurrence (a : String) (hs : List String)
    (h : a ∈ hs) : ∃ hs1 hs2, hs = hs1 ++ a :: hs2 ∧ a ∉ hs2 := by
  induction hs with
  | nil => cases h
  | cons h0 t ih =>
    by_cases hat : a ∈ t
    · obtain ⟨hs1, hs2, heq, hni⟩ := ih hat
      exact ⟨h0 :: hs1, hs2, by rw [heq, List.cons_append], hni⟩
    · have : a = h0 := by
        rcases List.mem_cons.mp h with h | h
        · exact h
        · exact absurd h hat
      exact ⟨[], t, by rw [this, List.nil_append], hat⟩

theorem buildRowAux_nil_values (hs : List String) :
    ∀ (i : Nat) (d : List (String × String)),
      (∀ p ∈ d, p.2 = "") → ∀ p ∈ buildRowAux [] i hs d, p.2 = "" := by
  induction hs with
  | nil => intro i d hd; simpa [buildRowAux] using hd
  | cons h0 t ih =>
    intro i d hd
    rw [buildRowAux]
    refine ih (i + 1) _ ?_
    intro p hp
    rcases dictSet_value_cases d h0 (cellValueAt [] i) p hp with h | h
    · exact hd p h
    · simpa [cellValueAt] using h

theorem buildRowData_nil_values (hs : List String) :
    ∀ p ∈ buildRowData hs [], p.2 = "" :=
  buildRowAux_nil_values hs 0 [] (by intro p hp; cases hp)

theorem dictGet_buildRowData_nil (hs : List String) (k : String)
    (h : k ∈ hs) : dictGet k (buildRowData hs []) = some "" := by
  obtain ⟨hs1, hs2, heq, hni⟩ := exists_last_occurrence k hs h
  rw [heq, dictGet_buildRowData_last hs1 hs2 k [] hni]
  simp [cellValueAt]

/-! ## Characterization of the row loop of the extractor -/

theorem foldl_append_of_filter {α β : Type} (p : α → Bool) (f : α → β)
    (rows : List α) :
    ∀ acc : List β,
      rows.foldl (fun rs tr => if p tr then rs ++ [f tr] else rs) acc =
        acc ++ (rows.filter p).map f := by
  induction rows with
  | nil => intro acc; simp
  | cons r t ih =>
    intro acc
    by_cases hp : p r = true
    · simp [List.foldl_cons, hp, ih, List.filter_cons]
    · have hp' : p r = false := Bool.eq_false_iff.mpr hp
      simp [List.foldl_cons, hp', ih, List.filter_cons]

theorem rawHeaders_ok_of_rows (r0 : Row) (rest : List Row) :
    ∃ hs, rawHeaders (Table.mk (r0 :: rest)) = Except.ok hs := by
  unfold rawHeaders
  simp only [List.head?, List.map_cons]
  split <;> (try split) <;> exact ⟨_, rfl⟩

theorem parseTableRowsToList_eq_ok (r0 : Row) (rest : List Row) (b : Bool) :
    parseTableRowsToList (Table.mk (r0 :: rest)) b =
      Except.ok ((rest.filter (fun r => rowHasData r || b)).map
        (fun r =>
          buildRowData (tableHeaders (Table.mk (r0 :: rest))) (rowTds r))) := by
  obtain ⟨hs0, hok⟩ := rawHeaders_ok_of_rows r0 rest
  unfold parseTableRowsToList tableHeaders
  rw [hok]
  simp only [Except.toOption, Option.getD_some]
  rw [show (Table.mk (r0 :: rest)).rows.drop 1 = rest from rfl]
  rw [foldl_append_of_filter (fun tr => rowHasData tr || b)
    (fun tr => buildRowData (patchHeaders hs0) (rowTds tr)) rest []]
  rw [List.nil_append]

theorem parseTableRowsToList_rowless (b : Bool) :
    parseTableRowsToList (Table.mk []) b =
      Except.error "ValueError: max() arg is an empty sequence" := rfl

theorem parseTableRowsToList_excluded (r0 : Row) (rs1 rs2 : List Row)
    (r : Row) (h : rowHasData r = false) :
    parseTableRowsToList (Table.mk (r0 :: (rs1 ++ r :: rs2))) false =
      Except.ok (((rs1 ++ rs2).filter (fun x => rowHasData x)).map
        (fun x =>
          buildRowData (tableHeaders (Table.mk (r0 :: (rs1 ++ r :: rs2))))
            (rowTds x))) := by
  rw [parseTableRowsToList_eq_ok]
  congr 1
  simp [List.filter_append, List.filter_cons, h]

theorem parseTableRowsToList_included (r0 : Row) (rs1 rs2 : List Row)
    (r : Row) :
    ∃ recs,
      parseTableRowsToList (Table.mk (r0 :: (rs1 ++ r :: rs2))) true =
          Except.ok recs ∧
        recs.length = (rs1 ++ r :: rs2).length ∧
        recs.get? rs1.length =
          some (buildRowData
            (tableHeaders (Table.mk (r0 :: (rs1 ++ r :: rs2)))) (rowTds r)) := by
  refine ⟨_, parseTableRowsToList_eq_ok r0 (rs1 ++ r :: rs2) true, ?_, ?_⟩
  · simp
  · simp only [Bool.or_true, List.filter_true, List.map_append, List.map_cons]
    rw [List.get?_append_right (by simp)]
    simp

/-! ## Lemmas on header derivation and the line-break patch -/

theorem truncateHeader_no_break (h : String) :
    (truncateHeader h).data.any (fun c => c = '\n') = false := by
  show ((h.data.takeWhile (fun c => c ≠ '\n')).any (fun c => c = '\n')) = false
  rw [List.any_eq_false]
  intro c hc
  have hm := List.mem_takeWhile_imp hc
  simp at hm ⊢
  exact hm

theorem patchHeaders_of_break (hs : List String)
    (hb : hs.any (fun h => h.data.any (fun c => c = '\n')) = true) :
    patchHeaders hs = hs.map truncateHeader := by
  unfold patchHeaders
  rw [if_pos hb]

theorem patchHeaders_of_no_break (hs : List String)
    (hb : hs.any (fun h => h.data.any (fun c => c = '\n')) = false) :
    patchHeaders hs = hs := by
  unfold patchHeaders
  rw [hb]
  simp

theorem dropWhile_first_break (l : List Char)
    (hb : l.any (fun c => c = '\n') = true) :
    ∃ rest, l.dropWhile (fun c => c ≠ '\n') = '\n' :: rest := by
  induction l with
  | nil => simp at hb
  | cons c t ih =>
    by_cases hc : c = '\n'
    · subst hc
      exact ⟨t, by simp [List.dropWhile_cons]⟩
    · have hbt : t.any (fun c => c = '\n') = true := by
        cases hdc : (decide (c = '\n')) with
        | true => exact absurd (of_decide_eq_true hdc) hc
        | false =>
          rw [List.any_cons, hdc, Bool.false_or] at hb
          exact hb
      obtain ⟨rest, hr⟩ := ih hbt
      refine ⟨rest, ?_⟩
      rw [List.dropWhile_cons, if_pos (decide_eq_true hc)]
      exact hr

theorem truncateHeader_decomp (h : String)
    (hb : h.data.any (fun c => c = '\n') = true) :
    ∃ rest, h.data = (truncateHeader h).data ++ '\n' :: rest := by
  obtain ⟨rest, hr⟩ := dropWhile_first_break h.data hb
  refine ⟨rest, ?_⟩
  conv_lhs => rw [← List.takeWhile_append_dropWhile
    (fun c => c ≠ '\n') h.data]
  rw [hr]
  rfl

theorem truncateHeader_of_no_break (h : String)
    (hb : h.data.any (fun c => c = '\n') = false) :
    truncateHeader h = h := by
  have ht : h.data.takeWhile (fun c => c ≠ '\n') = h.data := by
    rw [List.takeWhile_eq_self_iff]
    intro c hc
    rw [List.any_eq_false] at hb
    have := hb c hc
    simpa using this
  unfold truncateHeader
  rw [ht]

theorem patchHeaders_idem (hs : List String) :
    patchHeaders (patchHeaders hs) = patchHeaders hs := by
  by_cases hb : hs.any (fun h => h.data.any (fun c => c = '\n')) = true
  · rw [patchHeaders_of_break hs hb]
    apply patchHeaders_of_no_break
    rw [List.any_eq_false]
    intro h hmem
    obtain ⟨g, hg, rfl⟩ := List.mem_map.mp hmem
    simp [truncateHeader_no_break]
  · have hb' := Bool.eq_false_iff.mpr hb
    rw [patchHeaders_of_no_break hs hb', patchHeaders_of_no_break hs hb']

/-- Python `max` over all the rows' cell counts, in the total form usable
once the table is known to have at least one row. -/
def maxColsD (t : Table) : Nat :=
  (t.rows.map (fun r => (rowAllCells r).length)).foldl max 0

theorem foldl_max_zero_cons (n : Nat) (ns : List Nat) :
    List.foldl max 0 (n :: ns) = List.foldl max n ns := by
  rw [List.foldl_cons, Nat.zero_max]

theorem rawHeaders_of_ths (r : Row) (rest : List Row)
    (hth : (rowThs r).isEmpty = false) :
    rawHeaders (Table.mk (r :: rest)) =
      Except.ok ((rowThs r).map cellText) := by
  unfold rawHeaders
  simp only [List.head?]
  rw [hth]
  have hne : ((rowThs r).map cellText).isEmpty = false := by
    rw [List.isEmpty_eq_false] at hth ⊢
    simpa using hth
  simp [hne]

theorem rawHeaders_of_tds (r : Row) (rest : List Row)
    (hth : (rowThs r).isEmpty = true) (htd : (rowTds r).isEmpty = false) :
    rawHeaders (Table.mk (r :: rest)) =
      Except.ok ((rowTds r).map cellText) := by
  unfold rawHeaders
  simp only [List.head?]
  rw [hth]
  have hne : ((rowTds r).map cellText).isEmpty = false := by
    rw [List.isEmpty_eq_false] at htd ⊢
    simpa using htd
  simp [hne]

theorem rawHeaders_synthesized (r : Row) (rest : List Row)
    (hth : (rowThs r).isEmpty = true) (htd : (rowTds r).isEmpty = true) :
    rawHeaders (Table.mk (r :: rest)) =
      Except.ok ((List.range (maxColsD (Table.mk (r :: rest)))).map
        (fun i => "Column_" ++ toString (i + 1))) := by
  have hmap : ((rowTds r).map cellText).isEmpty = true := by
    rw [List.isEmpty_iff] at htd ⊢
    simp [htd]
  unfold rawHeaders
  simp only [List.head?]
  rw [hth]
  simp only [eq_self_iff_true, ite_true]
  rw [hmap]
  simp only [eq_self_iff_true, ite_true, List.map_cons]
  unfold maxColsD
  rw [List.map_cons, foldl_max_zero_cons]

/-! ## Lemmas on the multi-table (titled-section) variant -/

/-- Title of one activity table: the stripped full text of its first row
(statement convenience; junk on a rowless table). -/
def activityTitle (t : Table) : String :=
  pyStrip (rowText (t.rows.headD (Row.mk [])))

/-- Records of one activity table: the single-table extraction of the
table with its title row removed, so the former second row serves as the
header row (statement convenience for the success case). -/
def activityRecords (t : Table) : List (List (String × String)) :=
  ((t.rows.drop 2).filter (fun r => rowHasData r)).map
    (fun r => buildRowData (tableHeaders (Table.mk (t.rows.drop 1))) (rowTds r))

theorem activitySection_ok (t : Table) (h : 2 ≤ t.rows.length) :
    activitySection t = Except.ok (activityTitle t, activityRecords t) := by
  match t, h with
  | Table.mk (r0 :: r1 :: rest), _ =>
    unfold activitySection
    simp only [List.head?]
    rw [show (Table.mk (r0 :: r1 :: rest)).rows.drop 1 = r1 :: rest from rfl]
    rw [parseTableRowsToList_eq_ok r1 rest false]
    unfold activityTitle activityRecords
    simp [Bool.or_false]

theorem processActivityTables_ok (ts : List Table)
    (h : ∀ t ∈ ts, 2 ≤ t.rows.length) :
    processActivityTables ts =
      Except.ok (ts.map (fun t => (activityTitle t, activityRecords t))) := by
  induction ts with
  | nil => rfl
  | cons t rest ih =>
    unfold processActivityTables
    rw [activitySection_ok t (h t (List.mem_cons_self t rest))]
    rw [ih (fun u hu => h u (List.mem_cons_of_mem t hu))]
    simp

/-! ## Concrete fixtures -/

/-- Shorthand for a `<td>` cell. -/
def tdCell (s : String) : Cell := Cell.mk false s

/-- Shorthand for a `<th>` cell. -/
def thCell (s : String) : Cell := Cell.mk true s

/-- An HTTP-200 response whose body is a login bounce. -/
def loginResp : RawResponse :=
  RawResponse.mk 200 "OK" "https://ck964.ersp.biz/index.cfm" ""
    "<html>loginApp bootstrap</html>"

/-- An HTTP-200 response whose body is a genuine report page. -/
def reportResp : RawResponse :=
  RawResponse.mk 200 "OK" "https://ck964.ersp.biz/index.cfm" ""
    "<html><table>report</table></html>"

/-- An HTTP-403 response. -/
def authFailResp : RawResponse :=
  RawResponse.mk 403 "Forbidden" "https://ck964.ersp.biz/index.cfm" ""
    "<html>denied</html>"

/-- An HTTP-302 response. -/
def redirectResp : RawResponse :=
  RawResponse.mk 302 "Found" "https://ck964.ersp.biz/index.cfm" ""
    "<html>moved</html>"

/-- An HTTP-500 response. -/
def serverErrorResp : RawResponse :=
  RawResponse.mk 500 "Internal Server Error"
    "https://ck964.ersp.biz/index.cfm" "headermap" "<html>oops</html>"

/-- A table whose only row is a header row. -/
def headerOnlyTable : Table :=
  Table.mk [Row.mk [thCell "A", thCell "B"]]

/-- The round-trip example table: header `[A, B]`, data rows `(x, y)` and
the ragged `(z)`. -/
def roundTripTable : Table :=
  Table.mk [Row.mk [thCell "A", thCell "B"],
    Row.mk [tdCell "x", tdCell "y"],
    Row.mk [tdCell "z"]]

/-- A table whose header row repeats the header name `A`. -/
def dupHeaderTable : Table :=
  Table.mk [Row.mk [thCell "A", thCell "A"],
    Row.mk [tdCell "x", tdCell "y"]]

/-! ## Claims -/

/-- C1: for every response with HTTP status 200 whose body contains the
login-page marker (the login-page `div` attribute string, or the literal
substring `loginApp` anywhere in the body), `_handle_response` raises
`IntegrationAuthError` instead of returning the body; the marker check
takes priority over the apparently successful status. -/
theorem c1_login_marker_priority (resp : RawResponse)
    (h200 : resp.status = 200)
    (hmark : strContains resp.body loginDivMarker = true ∨
      strContains resp.body "loginApp" = true) :
    (handleResponse resp).1 =
      Except.error (ErspError.authError
        ("ERSP Authentication failed for " ++ resp.url)) := by
  have hcond : (strContains resp.body loginDivMarker ||
      strContains resp.body "loginApp") = true := by
    rcases hmark with h | h <;> simp [h]
  simp [handleResponse, h200, hcond]

/-- Witness for C1 at a concrete 200 response containing `loginApp`. -/
theorem c1_login_marker_priority_witness :
    (handleResponse loginResp).1 =
      Except.error (ErspError.authError
        ("ERSP Authentication failed for " ++ loginResp.url)) :=
  c1_login_marker_priority loginResp rfl (Or.inr (by decide))

/-- C2 counterexample: the claim calls the 302 failure "a distinct failure
category from the Generic API failure raised for other non-200 statuses",
but the source raises the same exception class `IntegrationAPIError` at
both the 302 raise site and the generic raise site: at a concrete 302
response and a concrete 500 response the raised exceptions are both
`apiError`. -/
theorem c2_counterexample :
    raisedApiError (handleResponse redirectResp).1 = true ∧
    raisedApiError (handleResponse serverErrorResp).1 = true :=
  ⟨rfl, rfl⟩

/-- C2 (amended): a 302 response raises an `IntegrationAPIError` — the same
exception class as the generic non-200 failure, not a distinct category —
that is distinct from the Authentication failure; its message names the
forced redirection and carries the response URL and the body, and it
carries no status-code argument, whereas the generic failure carries
`some status`. -/
theorem c2_redirect_same_class (resp : RawResponse)
    (h : resp.status = 302) :
    (handleResponse resp).1 =
      Except.error (ErspError.apiError integrationName
        ("forced redirection caught to " ++ resp.url ++ ". \n" ++ resp.body)
        none) ∧
    raisedApiError (handleResponse resp).1 = true ∧
    (∀ resp2 : RawResponse, resp2.status ≠ 200 →
      ¬ (400 ≤ resp2.status ∧ resp2.status < 500) → resp2.status ≠ 302 →
      (handleResponse resp2).1 =
        Except.error (ErspError.apiError integrationName
          ("ersp: " ++ toString resp2.status ++ " - " ++ resp2.headersStr)
          (some resp2.status))) := by
  have h200 : ¬ resp.status = 200 := by simp [h]
  have h4xx : ¬ (400 ≤ resp.status ∧ resp.status < 500) := by
    rw [h]
    decide
  have h1 : (handleResponse resp).1 =
      Except.error (ErspError.apiError integrationName
        ("forced redirection caught to " ++ resp.url ++ ". \n" ++ resp.body)
        none) := by
    simp [handleResponse, h200, h4xx, h]
  refine ⟨h1, by rw [h1]; rfl, ?_⟩
  intro resp2 hn1 hn2 hn3
  simp [handleResponse, hn1, hn2, hn3]

/-- Witness for C2's amended theorem at the concrete 302 and 500
responses. -/
theorem c2_redirect_same_class_witness :
    (handleResponse redirectResp).1 =
      Except.error (ErspError.apiError integrationName
        ("forced redirection caught to " ++ redirectResp.url ++ ". \n"
          ++ redirectResp.body) none) ∧
    (handleResponse serverErrorResp).1 =
      Except.error (ErspError.apiError integrationName
        ("ersp: " ++ toString serverErrorResp.status ++ " - "
          ++ serverErrorResp.headersStr) (some serverErrorResp.status)) :=
  ⟨(c2_redirect_same_class redirectResp rfl).1,
    (c2_redirect_same_class redirectResp rfl).2.2 serverErrorResp
      (by decide) (by decide) (by decide)⟩

/-- C3: the claim says extraction never raises — in particular that a
zero-row table yields an empty record sequence and a missing table an
empty result.  The code contradicts it: on a zero-row table the synthesized
header branch evaluates Python `max()` over an empty sequence and raises
`ValueError`, and `fetch_comfort_keepers_report` passes the result of
`select_one` to the extractor without a presence check, so a missing table
dereferences `None` and raises `AttributeError`.  (A header-only table does
degrade gracefully to the empty record sequence, as the claim says.) -/
theorem c3_extraction_errors :
    parseTableRowsToList (Table.mk []) false =
      Except.error "ValueError: max() arg is an empty sequence" ∧
    comfortKeepersExtract none =
      Except.error "AttributeError: NoneType object has no attribute find" ∧
    comfortKeepersExtract (some (Table.mk [])) =
      Except.error "ValueError: max() arg is an empty sequence" ∧
    parseTableRowsToList headerOnlyTable false = Except.ok [] :=
  ⟨rfl, rfl, rfl, rfl⟩

/-- Decomposition of a list at the last occurrence of an element named by
its position. -/
theorem last_occurrence_decomp (hs : List String) (i : Nat) (name : String)
    (hget : hs.get? i = some name)
    (hlast : ∀ j, i < j → hs.get? j ≠ some name) :
    hs = hs.take i ++ name :: hs.drop (i + 1) ∧
      name ∉ hs.drop (i + 1) ∧ (hs.take i).length = i := by
  have hlen : i < hs.length := by
    by_contra hle
    push_neg at hle
    rw [List.get?_eq_none.mpr hle] at hget
    cases hget
  have hi : hs.get ⟨i, hlen⟩ = name := by
    have := List.get?_eq_get hlen
    rw [this] at hget
    exact Option.some.inj hget
  refine ⟨?_, ?_, ?_⟩
  · conv_lhs => rw [← List.take_append_drop i hs]
    congr 1
    rw [List.drop_eq_getElem_cons hlen]
    congr 1
  · intro hmem
    obtain ⟨k, hk⟩ := List.mem_iff_getElem?.mp hmem
    rw [List.getElem?_drop] at hk
    refine hlast (i + 1 + k) (by omega) ?_
    rw [List.get?_eq_getElem?]
    exact hk
  · rw [List.length_take]
    omega

/-- C4 counterexample: with the duplicate-header table (headers `[A, A]`,
data row `(x, y)`), the claim's prescription "for each header position i
the value is the cell's trimmed text" fails at position 0: the emitted
record maps `A` to `y` (the later occurrence overwrote it), not to the
position-0 cell text `x`. -/
theorem c4_counterexample :
    parseTableRowsToList dupHeaderTable false =
      Except.ok [[("A", "y")]] ∧
    dictGet "A" [[("A", "y")]].head! ≠ some "x" := by
  refine ⟨rfl, ?_⟩
  decide

/-- C4 (amended): every emitted record is built from its source row's `td`
cells against the table's (patched) headers; its key set equals the
HeaderSet as a set (so cells beyond the header count are ignored); and for
each header position `i` that is the last occurrence of its name, the
record's value at that name is the trimmed text of the row's cell at
position `i`, or the empty string when the row has fewer cells — a later
duplicate header occurrence overwrites an earlier one. -/
theorem c4_record_shape (t : Table) (flag : Bool)
    (recs : List (List (String × String)))
    (hp : parseTableRowsToList t flag = Except.ok recs) :
    ∀ rec ∈ recs, ∃ r ∈ t.rows.drop 1,
      rec = buildRowData (tableHeaders t) (rowTds r) ∧
      (∀ k, k ∈ dictKeys rec ↔ k ∈ tableHeaders t) ∧
      (∀ i name, (tableHeaders t).get? i = some name →
        (∀ j, i < j → (tableHeaders t).get? j ≠ some name) →
        dictGet name rec = some (cellValueAt (rowTds r) i)) := by
  obtain ⟨rows⟩ := t
  cases rows with
  | nil =>
    rw [parseTableRowsToList_rowless] at hp
    cases hp
  | cons r0 rest =>
    rw [parseTableRowsToList_eq_ok] at hp
    injection hp with hp
    intro rec hrec
    rw [← hp] at hrec
    obtain ⟨r, hrmem, rfl⟩ := List.mem_map.mp hrec
    refine ⟨r, List.mem_of_mem_filter hrmem, rfl, ?_, ?_⟩
    · intro k
      exact mem_dictKeys_buildRowData _ _ k
    · intro i name hget hlast
      obtain ⟨hdecomp, hnotin, hlen⟩ :=
        last_occurrence_decomp _ i name hget hlast
      rw [hdecomp, dictGet_buildRowData_last _ _ _ _ hnotin, hlen]

/-- Witness for C4's amended theorem at the round-trip example table:
extraction yields the two records of the claim, and the ragged second
record satisfies the amended shape. -/
theorem c4_record_shape_witness :
    parseTableRowsToList roundTripTable false =
      Except.ok [[("A", "x"), ("B", "y")], [("A", "z"), ("B", "")]] ∧
    (∃ r ∈ roundTripTable.rows.drop 1,
      [("A", "z"), ("B", "")] =
        buildRowData (tableHeaders roundTripTable) (rowTds r) ∧
      (∀ k, k ∈ dictKeys [("A", "z"), ("B", "")] ↔
        k ∈ tableHeaders roundTripTable) ∧
      (∀ i name, (tableHeaders roundTripTable).get? i = some name →
        (∀ j, i < j → (tableHeaders roundTripTable).get? j ≠ some name) →
        dictGet name [("A", "z"), ("B", "")] =
          some (cellValueAt (rowTds r) i))) :=
  ⟨rfl, c4_record_shape roundTripTable false
    [[("A", "x"), ("B", "y")], [("A", "z"), ("B", "")]] rfl
    [("A", "z"), ("B", "")] (by decide)⟩

/-- A table whose first row has `th` cells (and also a `td` cell). -/
def thHeaderTable : Table :=
  Table.mk [Row.mk [thCell "H1", tdCell "ignored"], Row.mk [tdCell "v"]]

/-- A table whose first row has only `td` cells. -/
def tdHeaderTable : Table :=
  Table.mk [Row.mk [tdCell "D1", tdCell "D2"],
    Row.mk [tdCell "v", tdCell "w"]]

/-- A table whose first row is empty; a later row has three cells. -/
def emptyFirstRowTable : Table :=
  Table.mk [Row.mk [], Row.mk [tdCell "a", tdCell "b", tdCell "c"]]

/-- C5 counterexample: when the header row is absent because the table has
no rows at all, the claim says names `Column_1 … Column_N` are synthesized;
instead header derivation raises (Python `max()` over an empty sequence)
and yields no headers. -/
theorem c5_counterexample :
    rawHeaders (Table.mk []) =
      Except.error "ValueError: max() arg is an empty sequence" ∧
    (rawHeaders (Table.mk [])).toOption = none :=
  ⟨rfl, rfl⟩

/-- C5 (amended): for every table with at least one row, header derivation
follows the precedence — trimmed `th` texts of the first row if any `th`
exists; else trimmed `td` texts of the first row if it has any `td` cell;
else synthesized `Column_1 … Column_N` with `N` the maximum cell count
across all rows — each later option used only when the prior one is
unavailable.  (A table with no rows at all raises instead of
synthesizing.) -/
theorem c5_header_precedence (t : Table) (r : Row)
    (hr : t.rows.head? = some r) :
    ((rowThs r).isEmpty = false →
      rawHeaders t = Except.ok ((rowThs r).map cellText)) ∧
    ((rowThs r).isEmpty = true → (rowTds r).isEmpty = false →
      rawHeaders t = Except.ok ((rowTds r).map cellText)) ∧
    ((rowThs r).isEmpty = true → (rowTds r).isEmpty = true →
      rawHeaders t = Except.ok ((List.range (maxColsD t)).map
        (fun i => "Column_" ++ toString (i + 1)))) := by
  obtain ⟨rows⟩ := t
  cases rows with
  | nil => simp [List.head?] at hr
  | cons r0 rest =>
    have hr0 : r0 = r := by
      simp [List.head?] at hr
      exact hr
    subst hr0
    exact ⟨fun h => rawHeaders_of_ths r0 rest h,
      fun h1 h2 => rawHeaders_of_tds r0 rest h1 h2,
      fun h1 h2 => rawHeaders_synthesized r0 rest h1 h2⟩

/-- Witness for C5's amended theorem: all three precedence branches at
concrete tables (`th` wins over a present `td`; `td` used when no `th`;
synthesis over the maximum cell count of all rows when the first row is
empty). -/
theorem c5_header_precedence_witness :
    rawHeaders thHeaderTable = Except.ok ["H1"] ∧
    rawHeaders tdHeaderTable = Except.ok ["D1", "D2"] ∧
    rawHeaders emptyFirstRowTable =
      Except.ok ["Column_1", "Column_2", "Column_3"] := by
  refine ⟨?_, ?_, ?_⟩
  · rw [(c5_header_precedence thHeaderTable
      (Row.mk [thCell "H1", tdCell "ignored"]) rfl).1 (by decide)]
    rfl
  · rw [(c5_header_precedence tdHeaderTable
      (Row.mk [tdCell "D1", tdCell "D2"]) rfl).2.1 (by decide) (by decide)]
    rfl
  · rw [(c5_header_precedence emptyFirstRowTable
      (Row.mk []) rfl).2.2 (by decide) (by decide)]
    rfl

/-- C6: every data row whose cells all trim to the empty string has no
data, is excluded from the output by default (the output is exactly the
extraction of the remaining data rows), and is emitted at its position
when the blank-row-inclusion option is passed. -/
theorem c6_blank_rows (r0 : Row) (rs1 rs2 : List Row) (r : Row)
    (hblank : ∀ c ∈ r.cells, cellText c = "") :
    rowHasData r = false ∧
    parseTableRowsToList (Table.mk (r0 :: (rs1 ++ r :: rs2))) false =
      Except.ok (((rs1 ++ rs2).filter (fun x => rowHasData x)).map
        (fun x => buildRowData
          (tableHeaders (Table.mk (r0 :: (rs1 ++ r :: rs2)))) (rowTds x))) ∧
    (∃ recs,
      parseTableRowsToList (Table.mk (r0 :: (rs1 ++ r :: rs2))) true =
          Except.ok recs ∧
        recs.length = (rs1 ++ r :: rs2).length ∧
        recs.get? rs1.length = some (buildRowData
          (tableHeaders (Table.mk (r0 :: (rs1 ++ r :: rs2))))
          (rowTds r))) := by
  have hnd : rowHasData r = false := by
    unfold rowHasData
    rw [List.any_eq_false]
    intro c hc
    have hcmem : c ∈ r.cells := List.mem_of_mem_filter hc
    simp [hblank c hcmem]
  exact ⟨hnd, parseTableRowsToList_excluded r0 rs1 rs2 r hnd,
    parseTableRowsToList_included r0 rs1 rs2 r⟩

/-- Witness for C6 at a concrete table whose second data row is
whitespace-only: it has no data, is excluded by default, and is emitted
(at its position) under blank-row inclusion. -/
theorem c6_blank_rows_witness :
    rowHasData (Row.mk [tdCell "  ", tdCell ""]) = false ∧
    parseTableRowsToList (Table.mk (Row.mk [tdCell "A", tdCell "B"] ::
        ([] ++ Row.mk [tdCell "  ", tdCell ""] ::
          [Row.mk [tdCell "v", tdCell "w"]]))) false =
      Except.ok ((([] ++ [Row.mk [tdCell "v", tdCell "w"]]).filter
        (fun x => rowHasData x)).map
        (fun x => buildRowData
          (tableHeaders (Table.mk (Row.mk [tdCell "A", tdCell "B"] ::
            ([] ++ Row.mk [tdCell "  ", tdCell ""] ::
              [Row.mk [tdCell "v", tdCell "w"]])))) (rowTds x))) ∧
    (∃ recs,
      parseTableRowsToList (Table.mk (Row.mk [tdCell "A", tdCell "B"] ::
          ([] ++ Row.mk [tdCell "  ", tdCell ""] ::
            [Row.mk [tdCell "v", tdCell "w"]]))) true =
          Except.ok recs ∧
        recs.length = ([] ++ Row.mk [tdCell "  ", tdCell ""] ::
          [Row.mk [tdCell "v", tdCell "w"]]).length ∧
        recs.get? (List.length ([] : List Row)) =
          some (buildRowData
            (tableHeaders (Table.mk (Row.mk [tdCell "A", tdCell "B"] ::
              ([] ++ Row.mk [tdCell "  ", tdCell ""] ::
                [Row.mk [tdCell "v", tdCell "w"]]))))
            (rowTds (Row.mk [tdCell "  ", tdCell ""])))) :=
  c6_blank_rows (Row.mk [tdCell "A", tdCell "B"]) []
    [Row.mk [tdCell "v", tdCell "w"]]
    (Row.mk [tdCell "  ", tdCell ""]) (by decide)

/-- A marked activity table consisting only of a title row. -/
def titleOnlyTable : Table :=
  Table.mk [Row.mk [tdCell "Jane Doe"]]

/-- An activity table for "Jane Doe" with one data row `1`. -/
def janeTableA : Table :=
  Table.mk [Row.mk [tdCell "Jane Doe"], Row.mk [thCell "H"],
    Row.mk [tdCell "1"]]

/-- A second, distinct activity table also titled "Jane Doe". -/
def janeTableB : Table :=
  Table.mk [Row.mk [tdCell "Jane Doe"], Row.mk [thCell "H"],
    Row.mk [tdCell "2"]]

/-- C7 counterexample: a page whose selected table has only a title row
does not yield one TitledSection per table; the loop raises (the
single-table parse of the emptied table hits Python `max()` on an empty
sequence) and emits no sections at all. -/
theorem c7_counterexample :
    processActivityTables [titleOnlyTable] =
      Except.error "ValueError: max() arg is an empty sequence" := rfl

/-- C7 (amended): when every selected table has at least two rows (its
title row plus at least a header row), multi-table extraction emits exactly
one TitledSection per table, preserving page order; each section's title is
the trimmed full text of that table's first row, which is removed before
single-table extraction runs on the remainder (the former second row
becoming the header row); identically titled sections stay separate
parallel entries.  A selected table with fewer than two rows instead makes
the whole fetch raise. -/
theorem c7_titled_sections (ts : List Table)
    (h : ∀ t ∈ ts, 2 ≤ t.rows.length) :
    processActivityTables ts =
      Except.ok (ts.map (fun t => (activityTitle t, activityRecords t))) ∧
    (∀ t ∈ ts, parseTableRowsToList (Table.mk (t.rows.drop 1)) false =
      Except.ok (activityRecords t)) := by
  refine ⟨processActivityTables_ok ts h, ?_⟩
  intro t ht
  obtain ⟨rows⟩ := t
  cases rows with
  | nil =>
    have := h (Table.mk []) ht
    simp at this
  | cons r1 rest =>
    cases rest with
    | nil =>
      have := h (Table.mk [r1]) ht
      simp at this
    | cons r2 rest2 =>
      rw [show (Table.mk (r1 :: r2 :: rest2)).rows.drop 1 = r2 :: rest2
        from rfl]
      rw [parseTableRowsToList_eq_ok]
      unfold activityRecords
      simp [Bool.or_false]

/-- Witness for C7 at a page with two tables both titled "Jane Doe": two
separate TitledSection entries are produced, in page order, not merged. -/
theorem c7_titled_sections_witness :
    processActivityTables [janeTableA, janeTableB] =
      Except.ok [("Jane Doe", [[("H", "1")]]),
        ("Jane Doe", [[("H", "2")]])] := by
  rw [(c7_titled_sections [janeTableA, janeTableB] (by decide)).1]
  rfl

/-- C8: if any derived header string contains an embedded line break, the
patch replaces every header in the set by `truncateHeader`, which is
exactly the text preceding the first line break — a break-containing
header decomposes as its truncation, then the break, then the remainder,
and a break-free header is left unchanged; patched headers contain no
line break, so patching an already-truncated header set changes nothing;
the headers any table actually uses are patch-stable; and the patch is
idempotent. -/
theorem c8_header_break_truncation (hs : List String) :
    (hs.any (fun h => h.data.any (fun c => c = '\n')) = true →
      patchHeaders hs = hs.map truncateHeader) ∧
    (∀ h ∈ hs, h.data.any (fun c => c = '\n') = true →
      ∃ rest, h.data = (truncateHeader h).data ++ '\n' :: rest) ∧
    (∀ h ∈ hs, h.data.any (fun c => c = '\n') = false →
      truncateHeader h = h) ∧
    (∀ h ∈ hs.map truncateHeader,
      h.data.any (fun c => c = '\n') = false) ∧
    patchHeaders (hs.map truncateHeader) = hs.map truncateHeader ∧
    (∀ t : Table, patchHeaders (tableHeaders t) = tableHeaders t) ∧
    patchHeaders (patchHeaders hs) = patchHeaders hs := by
  have hnone : ∀ h ∈ hs.map truncateHeader,
      h.data.any (fun c => c = '\n') = false := by
    intro h hmem
    obtain ⟨g, hg, rfl⟩ := List.mem_map.mp hmem
    exact truncateHeader_no_break g
  refine ⟨patchHeaders_of_break hs,
    fun h _ hb => truncateHeader_decomp h hb,
    fun h _ hb => truncateHeader_of_no_break h hb,
    hnone, ?_, ?_, patchHeaders_idem hs⟩
  · apply patchHeaders_of_no_break
    rw [List.any_eq_false]
    intro h hmem
    simp [hnone h hmem]
  · intro t
    unfold tableHeaders
    exact patchHeaders_idem _

/-- Witness for C8 at the concrete header set `[Total\nHours, Name]`: the
patch truncates both headers to their pre-break text, the break-containing
header decomposes around its first break, and re-applying the patch is a
no-op. -/
theorem c8_header_break_truncation_witness :
    patchHeaders ["Total\nHours", "Name"] = ["Total", "Name"] ∧
    (∃ rest, "Total\nHours".data = "Total".data ++ '\n' :: rest) ∧
    patchHeaders ["Total", "Name"] = ["Total", "Name"] := by
  refine ⟨?_, ?_, ?_⟩
  · rw [(c8_header_break_truncation ["Total\nHours", "Name"]).1 (by decide)]
    rfl
  · obtain ⟨rest, hr⟩ :=
      (c8_header_break_truncation ["Total\nHours", "Name"]).2.1
        "Total\nHours" (by decide) (by decide)
    refine ⟨rest, ?_⟩
    rw [show ("Total" : String).data =
      (truncateHeader "Total\nHours").data from rfl]
    exact hr
  · have h5 :=
      (c8_header_break_truncation ["Total\nHours", "Name"]).2.2.2.2.1
    rw [show ["Total\nHours", "Name"].map truncateHeader = ["Total", "Name"]
      from rfl] at h5
    exact h5

/-- C9: the claim (and the spec) say the classifier reads the response
body at most once and that the success path returns the already-read text.
On the 200 success path the code instead invokes `response.text()` a
second time for the return value (line 47), ignoring the `r_text` it
already read at line 40: two reads, not at most one.  The failure branches
do read at most once (the marker branch and the 4xx and 302 message
constructions read once; the generic branch reads nothing). -/
theorem c9_success_path_reads_twice :
    (handleResponse reportResp).1 = Except.ok reportResp.body ∧
    (handleResponse reportResp).2 = 2 ∧
    ¬ (handleResponse reportResp).2 ≤ 1 ∧
    (handleResponse loginResp).2 = 1 ∧
    (handleResponse authFailResp).2 = 1 ∧
    (handleResponse redirectResp).2 = 1 ∧
    (handleResponse serverErrorResp).2 = 0 :=
  ⟨rfl, rfl, by decide, rfl, rfl, rfl, rfl⟩

/-- C10: in data-row processing only `td` cells are enumerated, so a row
whose cells are all `th` elements has no data cells: its cell text never
reaches any record; by default such a row is excluded, and under blank-row
inclusion it is emitted (at its position) with every header mapped to the
empty string. -/
theorem c10_all_th_row (r : Row) (hth : ∀ c ∈ r.cells, c.isTh = true) :
    rowTds r = [] ∧
    rowHasData r = false ∧
    (∀ hs : List String, ∀ p ∈ buildRowData hs (rowTds r), p.2 = "") ∧
    (∀ hs : List String, ∀ k ∈ hs,
      dictGet k (buildRowData hs (rowTds r)) = some "") ∧
    (∀ (r0 : Row) (rs1 rs2 : List Row),
      parseTableRowsToList (Table.mk (r0 :: (rs1 ++ r :: rs2))) false =
        Except.ok (((rs1 ++ rs2).filter (fun x => rowHasData x)).map
          (fun x => buildRowData
            (tableHeaders (Table.mk (r0 :: (rs1 ++ r :: rs2))))
            (rowTds x))) ∧
      (∃ recs,
        parseTableRowsToList (Table.mk (r0 :: (rs1 ++ r :: rs2))) true =
            Except.ok recs ∧
          recs.get? rs1.length = some (buildRowData
            (tableHeaders (Table.mk (r0 :: (rs1 ++ r :: rs2)))) []))) := by
  have htds : rowTds r = [] := by
    unfold rowTds
    rw [List.filter_eq_nil]
    intro c hc
    simp [hth c hc]
  have hnd : rowHasData r = false := by
    unfold rowHasData
    rw [htds]
    rfl
  refine ⟨htds, hnd, ?_, ?_, ?_⟩
  · intro hs p hp
    rw [htds] at hp
    exact buildRowData_nil_values hs p hp
  · intro hs k hk
    rw [htds]
    exact dictGet_buildRowData_nil hs k hk
  · intro r0 rs1 rs2
    refine ⟨parseTableRowsToList_excluded r0 rs1 rs2 r hnd, ?_⟩
    obtain ⟨recs, h1, _, h3⟩ := parseTableRowsToList_included r0 rs1 rs2 r
    refine ⟨recs, h1, ?_⟩
    rw [h3, htds]

/-- Witness for C10 at a concrete all-`th` data row: no `td` cells, no
data, and under blank-row inclusion every header maps to the empty
string. -/
theorem c10_all_th_row_witness :
    rowTds (Row.mk [thCell "X", thCell "Y"]) = [] ∧
    rowHasData (Row.mk [thCell "X", thCell "Y"]) = false ∧
    dictGet "A" (buildRowData ["A", "B"]
      (rowTds (Row.mk [thCell "X", thCell "Y"]))) = some "" :=
  ⟨(c10_all_th_row (Row.mk [thCell "X", thCell "Y"]) (by decide)).1,
    (c10_all_th_row (Row.mk [thCell "X", thCell "Y"]) (by decide)).2.1,
    (c10_all_th_row (Row.mk [thCell "X", thCell "Y"]) (by decide)).2.2.2.1
      ["A", "B"] "A" (by decide)⟩

end Ersp
